import Mathlib

/-!
Verification of the scamvax-api share-lifecycle and unlock-wallet services.

The Python services in `app/services/share.py`, `app/services/storage.py` and
`app/services/unlock.py` are shallowly embedded as pure Lean functions over an
explicit state.  The relational store is modelled as a list of rows; a SQL
`UPDATE ... WHERE cond` becomes a `List.map` that rewrites the rows matching
`cond`, and a `SELECT ... WHERE cond` with `.first()` becomes `(filter cond).head?`.
Each service call maps an input state to a result together with the post-call
state; a call that raises an exception yields the rolled-back (input) state,
matching the `get_db` session discipline in `app/core/database.py` (rollback on
exception), except where the source commits explicitly before raising.
Timestamps are `Nat` seconds.  Object storage (Cloudflare R2) is a list of the
keys currently present; the transient `ClientError` failures that
`storage.delete_audio` swallows are injected through an explicit `sfail`
environment saying which challenge ids' deletes fail.
-/

namespace Scamvax

/-- Status of a share row (`ShareStatus` in `app/models/share.py`). -/
inductive ShareStatus where
  | active
  | deleted
  | failed
deriving DecidableEq, Repr

/-- One row of the `shares` table (`Share` in `app/models/share.py`). -/
structure Share where
  share_id : String
  device_id : String
  created_at : Nat
  expires_at : Nat
  click_count : Nat
  max_clicks : Nat
  status : ShareStatus
  ai_audio_key : Option String
  lang : Option String
  region : Option String
  platform : Option String
  script_version : Option String
deriving DecidableEq, Repr

/-- `Share.is_expired` from `app/models/share.py`:
`click_count >= max_clicks or now >= expires_at`. -/
def Share.is_expired (s : Share) (now : Nat) : Bool :=
  decide (s.max_clicks ≤ s.click_count) || decide (s.expires_at ≤ now)

/-- `Share.is_accessible` from `app/models/share.py`:
`status == active and not is_expired()`. -/
def Share.is_accessible (s : Share) (now : Nat) : Bool :=
  decide (s.status = ShareStatus.active) && !(s.is_expired now)

/-- `storage.get_audio_key`: R2 object key for a challenge id. -/
def get_audio_key (challenge_id : String) : String :=
  "fake/" ++ challenge_id ++ ".wav"

/-- `storage.get_fake_url`: public CDN URL of the object. -/
def get_fake_url (public_base : String) (challenge_id : String) : String :=
  public_base ++ "/" ++ get_audio_key challenge_id

/-- `storage.delete_audio`: deletes the R2 object and reports success; on a
`ClientError` (injected through `sfail`) it logs, leaves the object alone and
returns `false`.  An S3 delete of an absent key succeeds, so absent keys are
not a failure. -/
def delete_audio (sfail : String → Bool) (blobs : List String)
    (challenge_id : String) : Bool × List String :=
  if sfail challenge_id then (false, blobs)
  else (true, blobs.filter (fun k => decide (k ≠ get_audio_key challenge_id)))

/-- `storage.upload_audio`: puts the object under `get_audio_key` and returns
the public URL.  (The source re-raises upload failures before any row is
written; that abort path carries no claim, so uploads are modelled as
succeeding.) -/
def upload_audio (public_base : String) (blobs : List String)
    (challenge_id : String) : String × List String :=
  (get_fake_url public_base challenge_id, get_audio_key challenge_id :: blobs)

/-- Combined persistent state: the `shares` table plus the set of R2 keys. -/
structure St where
  shares : List Share
  blobs : List String
deriving DecidableEq, Repr

/-- `share.delete_share`: best-effort R2 delete (result only logged), then
`UPDATE shares SET status = deleted WHERE share_id = sid`, commit, return
`True`. -/
def delete_share (sfail : String → Bool) (st : St) (share_id : String) :
    Bool × St :=
  let res := delete_audio sfail st.blobs share_id
  let shares' := st.shares.map
    (fun s => if s.share_id = share_id then { s with status := ShareStatus.deleted } else s)
  (true, { shares := shares', blobs := res.2 })

/-- Table after the conditional update of `access_share`:
`UPDATE shares SET click_count = click_count + 1
 WHERE share_id = sid AND status = active`. -/
def accessUpdate (shares : List Share) (share_id : String) : List Share :=
  shares.map (fun s =>
    if s.share_id = share_id ∧ s.status = ShareStatus.active then
      { s with click_count := s.click_count + 1 }
    else s)

/-- The `RETURNING`-clause result of that update, as consumed by
`result.scalars().first()`: the first post-increment row the update touched. -/
def accessReturning (shares : List Share) (share_id : String) : Option Share :=
  (shares.filterMap (fun s =>
    if s.share_id = share_id ∧ s.status = ShareStatus.active then
      some { s with click_count := s.click_count + 1 }
    else none)).head?

/-- `share.access_share`: one atomic conditional increment (committed), then
the expiry check on the returned row; an expired row triggers `delete_share`
and the caller sees `none`. -/
def access_share (sfail : String → Bool) (now : Nat) (st : St)
    (share_id : String) : Option Share × St :=
  match accessReturning st.shares share_id with
  | none => (none, { st with shares := accessUpdate st.shares share_id })
  | some share =>
    if share.is_expired now then
      (none, (delete_share sfail { st with shares := accessUpdate st.shares share_id } share_id).2)
    else
      (some share, { st with shares := accessUpdate st.shares share_id })

/-- `share.get_share`: pure `SELECT ... WHERE share_id = sid`, `.first()`;
no row is written. -/
def get_share (st : St) (share_id : String) : Option Share :=
  (st.shares.filter (fun s => decide (s.share_id = share_id))).head?

/-- Selection predicate of the cleanup sweep:
`status == active AND expires_at <= now`. -/
def expiredCond (now : Nat) (s : Share) : Bool :=
  decide (s.status = ShareStatus.active) && decide (s.expires_at ≤ now)

/-- `share.cleanup_expired_shares`: select the expired active shares once,
then `delete_share` each, counting. -/
def cleanup_expired_shares (sfail : String → Bool) (now : Nat) (st : St) :
    Nat × St :=
  let expired := st.shares.filter (expiredCond now)
  expired.foldl (fun acc s =>
    let r := delete_share sfail acc.2 s.share_id
    (acc.1 + 1, r.2)) (0, st)

/-- Outcome of `share.create_share`.  The source raises a bare `RuntimeError`
when all three candidate ids collide; the spec names that exhaustion failure
`SHARE_ID_EXHAUSTED`. -/
inductive CreateResult where
  | ok (share : Share) (st : St)
  | SHARE_ID_EXHAUSTED (st : St)
deriving DecidableEq, Repr

/-- Does an insert with this primary key raise `IntegrityError`? -/
def shareIdTaken (shares : List Share) (share_id : String) : Bool :=
  shares.any (fun s => decide (s.share_id = share_id))

/-- One iteration of the `for attempt in range(3)` loop of
`share.create_share`, with `fuel` the number of loop indices still available
(the source checks `attempt == 2`, i.e. the decremented fuel is zero).  Upload
first; on `IntegrityError` roll back the insert and attempt to delete the
just-uploaded object — `delete_audio`'s boolean result is ignored, exactly as
in the source, so a swallowed `ClientError` (injected through `sfail`) leaves
the blob behind — then retry or give up. -/
def create_attempts (sfail : String → Bool) (gen : Nat → String)
    (public_base device_id : String)
    (now expires_at max_clicks : Nat) (lang platform region : Option String) :
    Nat → Nat → St → CreateResult
  | _attempt, 0, st => CreateResult.SHARE_ID_EXHAUSTED st
  | attempt, fuel + 1, st =>
    let sid := gen attempt
    let up := upload_audio public_base st.blobs sid
    let stUp : St := { st with blobs := up.2 }
    if shareIdTaken st.shares sid then
      let stClean : St := { stUp with blobs := (delete_audio sfail stUp.blobs sid).2 }
      if fuel = 0 then CreateResult.SHARE_ID_EXHAUSTED stClean
      else create_attempts sfail gen public_base device_id now expires_at max_clicks
        lang platform region (attempt + 1) fuel stClean
    else
      let share : Share :=
        { share_id := sid, device_id := device_id, created_at := now,
          expires_at := expires_at, click_count := 0, max_clicks := max_clicks,
          status := ShareStatus.active, ai_audio_key := some up.1,
          lang := lang, region := region, platform := platform,
          script_version := some "v1" }
      CreateResult.ok share { stUp with shares := share :: stUp.shares }

/-- `share.create_share`: three attempts, candidate ids drawn from the
`generate_share_id` stream `gen`. -/
def create_share (sfail : String → Bool) (gen : Nat → String)
    (public_base device_id : String)
    (now expires_at max_clicks : Nat) (lang platform region : Option String)
    (st : St) : CreateResult :=
  create_attempts sfail gen public_base device_id now expires_at max_clicks
    lang platform region 0 3 st

/-- Blob set after one conflicted attempt of `create_share`: the candidate
object is uploaded, then its storage delete is attempted; the delete's
boolean outcome is discarded. -/
def conflictCleanup (sfail : String → Bool) (public_base : String)
    (candidate : String) (blobs : List String) : List String :=
  (delete_audio sfail (upload_audio public_base blobs candidate).2 candidate).2

/-- Sequential driver: perform `n` `access_share` calls on one id, counting
the calls that returned a share. -/
def runAccesses (sfail : String → Bool) (now : Nat) (share_id : String) :
    Nat → St → Nat × St
  | 0, st => (0, st)
  | n + 1, st =>
    let r := access_share sfail now st share_id
    let rest := runAccesses sfail now share_id n r.2
    ((if r.1.isSome then 1 else 0) + rest.1, rest.2)

/-! ### Unlock service (`app/services/unlock.py`, `app/models/unlock.py`)

An unlock token is the signed bundle `{v, jti, did, m, exp}`.  The
base64url/HMAC encode-sign step of `issue_unlock_token` and the
verify-and-decode step of `_verify_and_parse` compose to the identity on a
token the server itself issued, so tokens are modelled as their structured
payloads; the signature and structural checks of `_verify_and_parse` are
satisfied by construction for issued tokens, and the remaining live check —
expiry — is kept explicit.  The fresh `uuid4` jti is an input. -/

/-- One row of `device_wallets` (`DeviceWallet` in `app/models/unlock.py`). -/
structure DeviceWallet where
  device_id : String
  credits : Int
  bonus_used : Bool
deriving DecidableEq, Repr

/-- One row of `unlock_token_uses` (`UnlockTokenUse` in
`app/models/unlock.py`). -/
structure UnlockTokenUse where
  jti : String
  device_id : String
  method : String
deriving DecidableEq, Repr

/-- Persistent unlock-side state. -/
structure UnlockSt where
  wallets : List DeviceWallet
  token_uses : List UnlockTokenUse
deriving DecidableEq, Repr

/-- The `error_code` values raised via `UnlockError` in
`app/services/unlock.py`. -/
inductive UnlockErrorCode where
  | INVALID_UNLOCK_METHOD
  | UNLOCK_REQUIRED
  | WALLET_UNAVAILABLE
  | INVALID_UNLOCK_TOKEN
  | UNLOCK_TOKEN_EXPIRED
  | UNLOCK_TOKEN_USED
deriving DecidableEq, Repr

/-- Payload of an unlock token as built by `issue_unlock_token`. -/
structure TokenPayload where
  v : Nat
  jti : String
  did : String
  m : String
  exp : Nat
deriving DecidableEq, Repr

/-- `_TOKEN_TTL_SECONDS` in `app/services/unlock.py`. -/
def TOKEN_TTL_SECONDS : Nat := 600

/-- Python `str.upper()` on the ASCII method strings in play. -/
def pyUpper (s : String) : String := ⟨s.data.map Char.toUpper⟩

/-- Python `str.strip()`: drop whitespace from both ends. -/
def pyStrip (s : String) : String :=
  ⟨((s.data.dropWhile Char.isWhitespace).reverse.dropWhile Char.isWhitespace).reverse⟩

/-- Is there a `device_wallets` row for this device? -/
def walletExists (ws : List DeviceWallet) (did : String) : Bool :=
  ws.any (fun w => decide (w.device_id = did))

/-- The `INSERT ... ON CONFLICT (device_id) DO NOTHING` of `_ensure_wallet`
(also inlined in `consume_unlock_token`): create the default row
`(did, 100, false)` only when absent. -/
def ensureWalletRow (ws : List DeviceWallet) (did : String) :
    List DeviceWallet :=
  if walletExists ws did then ws
  else { device_id := did, credits := 100, bonus_used := false } :: ws

/-- `SELECT ... WHERE device_id = did`, `.first()`. -/
def findWallet (ws : List DeviceWallet) (did : String) : Option DeviceWallet :=
  (ws.filter (fun w => decide (w.device_id = did))).head?

/-- `unlock.issue_unlock_token`: normalize the method, lazily ensure the
wallet, check eligibility without spending, and return the signed payload.
Error paths roll the session back to the input state. -/
def issue_unlock_token (now : Nat) (jti : String) (st : UnlockSt)
    (device_id method0 : String) :
    Except UnlockErrorCode TokenPayload × UnlockSt :=
  let method := pyUpper (pyStrip method0)
  if ¬ (method = "CREDIT" ∨ method = "BONUS") then
    (Except.error UnlockErrorCode.INVALID_UNLOCK_METHOD, st)
  else
    let ws := ensureWalletRow st.wallets device_id
    match findWallet ws device_id with
    | none => (Except.error UnlockErrorCode.WALLET_UNAVAILABLE, st)
    | some wallet =>
      if method = "CREDIT" ∧ wallet.credits ≤ 0 then
        (Except.error UnlockErrorCode.UNLOCK_REQUIRED, st)
      else if method = "BONUS" ∧ wallet.bonus_used then
        (Except.error UnlockErrorCode.UNLOCK_REQUIRED, st)
      else
        (Except.ok { v := 1, jti := jti, did := device_id, m := method,
                     exp := now + TOKEN_TTL_SECONDS },
         { st with wallets := ws })

/-- `unlock.consume_unlock_token` on a token whose signature already
verifies: expiry check (from `_verify_and_parse`), device match, method/jti
shape, single-use check against `unlock_token_uses`, then the locked wallet
re-check and spend, inserting the usage row in the same transaction.  Error
paths roll the session back to the input state. -/
def consume_unlock_token (now : Nat) (st : UnlockSt) (device_id : String)
    (tok : TokenPayload) : Except UnlockErrorCode String × UnlockSt :=
  if tok.exp < now then
    (Except.error UnlockErrorCode.UNLOCK_TOKEN_EXPIRED, st)
  else
    let method := pyUpper tok.m
    let jti := tok.jti
    if ¬ (tok.did = device_id) then
      (Except.error UnlockErrorCode.INVALID_UNLOCK_TOKEN, st)
    else if ¬ ((method = "CREDIT" ∨ method = "BONUS") ∧ jti ≠ "") then
      (Except.error UnlockErrorCode.INVALID_UNLOCK_TOKEN, st)
    else if st.token_uses.any (fun u => decide (u.jti = jti)) then
      (Except.error UnlockErrorCode.UNLOCK_TOKEN_USED, st)
    else
      let ws := ensureWalletRow st.wallets device_id
      match findWallet ws device_id with
      | none => (Except.error UnlockErrorCode.WALLET_UNAVAILABLE, st)
      | some wallet =>
        if method = "CREDIT" then
          if wallet.credits ≤ 0 then
            (Except.error UnlockErrorCode.UNLOCK_REQUIRED, st)
          else
            (Except.ok method,
             { wallets := ws.map (fun w =>
                 if w.device_id = device_id then { w with credits := w.credits - 1 } else w),
               token_uses := { jti := jti, device_id := device_id, method := method }
                 :: st.token_uses })
        else
          if wallet.bonus_used then
            (Except.error UnlockErrorCode.UNLOCK_REQUIRED, st)
          else
            (Except.ok method,
             { wallets := ws.map (fun w =>
                 if w.device_id = device_id then { w with bonus_used := true } else w),
               token_uses := { jti := jti, device_id := device_id, method := method }
                 :: st.token_uses })

/-- One `issue("CREDIT")`-then-`consume` round at a single instant. -/
def issueThenConsume (now : Nat) (jti : String) (st : UnlockSt)
    (device_id : String) : Except UnlockErrorCode String × UnlockSt :=
  match issue_unlock_token now jti st device_id "CREDIT" with
  | (Except.error e, st') => (Except.error e, st')
  | (Except.ok tok, st') => consume_unlock_token now st' device_id tok

/-- Sequential driver: rounds `i, i+1, ..., i+n-1`, drawing the fresh jti of
round `k` from `jtis k`; counts the rounds whose consume returned `ok`. -/
def runRoundsFrom (jtis : Nat → String) (now : Nat) (device_id : String) :
    Nat → Nat → UnlockSt → Nat × UnlockSt
  | _i, 0, st => (0, st)
  | i, n + 1, st =>
    let r := issueThenConsume now (jtis i) st device_id
    let rest := runRoundsFrom jtis now device_id (i + 1) n r.2
    ((match r.1 with | Except.ok _ => 1 | Except.error _ => 0) + rest.1, rest.2)

/-- `n` issue-then-consume rounds starting from round `0`. -/
def runRounds (jtis : Nat → String) (now : Nat) (device_id : String)
    (n : Nat) (st : UnlockSt) : Nat × UnlockSt :=
  runRoundsFrom jtis now device_id 0 n st

/-! ### Audio endpoint (`get_audio` in `app/api/share.py`) -/

/-- Observable outcome of `GET /api/share/{share_id}/audio`. -/
inductive AudioResponse where
  | stream (share_id : String)
  | http404 (error_code : String)
deriving DecidableEq, Repr

/-- `get_audio` endpoint: read-only lookup via `get_share`; 404 unless the
share exists and `is_accessible()`; 404 `AUDIO_NOT_FOUND` when the R2 object
is gone; otherwise stream. -/
def get_audio (now : Nat) (st : St) (share_id : String) :
    AudioResponse × St :=
  match get_share st share_id with
  | none => (AudioResponse.http404 "SHARE_UNAVAILABLE", st)
  | some share =>
    if share.is_accessible now then
      if get_audio_key share_id ∈ st.blobs then (AudioResponse.stream share_id, st)
      else (AudioResponse.http404 "AUDIO_NOT_FOUND", st)
    else (AudioResponse.http404 "SHARE_UNAVAILABLE", st)

/-! ### Helper lemmas -/

/-- Decomposition of `is_accessible`: active, under the click ceiling, and
before the expiry time. -/
theorem is_accessible_iff (s : Share) (now : Nat) :
    s.is_accessible now = true ↔
      s.status = ShareStatus.active ∧ s.click_count < s.max_clicks ∧
        now < s.expires_at := by
  simp [Share.is_accessible, Share.is_expired, Nat.not_le, and_assoc]

theorem head?_mem_of_eq_some {l : List α} {a : α} (h : l.head? = some a) :
    a ∈ l := by
  cases l with
  | nil => simp at h
  | cons x xs => simp at h; simp [h]

theorem walletExists_of_findWallet {ws : List DeviceWallet} {did : String}
    {w : DeviceWallet} (h : findWallet ws did = some w) :
    walletExists ws did = true := by
  have hw := head?_mem_of_eq_some h
  have := List.mem_filter.1 hw
  simp only [walletExists, List.any_eq_true]
  exact ⟨w, this.1, this.2⟩

/-- After `delete_share`, every row carrying the target id has status
`deleted`, whatever the storage outcome. -/
theorem delete_share_marks (sfail : String → Bool) (st : St) (sid : String) :
    ∀ s ∈ (delete_share sfail st sid).2.shares, s.share_id = sid →
      s.status = ShareStatus.deleted := by
  intro s hs hid
  simp only [delete_share] at hs
  rcases List.mem_map.1 hs with ⟨a, _, ha⟩
  by_cases h : a.share_id = sid
  · simp [h] at ha; simp [← ha]
  · simp [h] at ha; subst ha; exact absurd hid h

/-! ### C10 — the audio read path never consumes click budget -/

/-- C10.  `get_share` and the audio endpoint built on it are read-only — the
post-call state is the input state, so no field of any share row (in
particular `click_count`) changes — while audio is served only when the share
exists and is accessible (`status` active, `click_count < max_clicks`,
`now < expires_at`); an inaccessible or missing share gets the 404
`SHARE_UNAVAILABLE`. -/
theorem get_audio_read_only_and_gated :
    ∀ (now : Nat) (st : St) (sid : String),
      (get_audio now st sid).2 = st ∧
      ((get_audio now st sid).1 = AudioResponse.stream sid →
        ∃ sh, get_share st sid = some sh ∧ sh.status = ShareStatus.active ∧
          sh.click_count < sh.max_clicks ∧ now < sh.expires_at) ∧
      (∀ sh, get_share st sid = some sh → sh.is_accessible now = false →
        (get_audio now st sid).1 = AudioResponse.http404 "SHARE_UNAVAILABLE") ∧
      (get_share st sid = none →
        (get_audio now st sid).1 = AudioResponse.http404 "SHARE_UNAVAILABLE") := by
  intro now st sid
  refine ⟨?_, ?_, ?_, ?_⟩
  · cases hm : get_share st sid with
    | none => simp [get_audio, hm]
    | some sh =>
      by_cases ha : sh.is_accessible now <;>
        simp [get_audio, hm, ha] <;> split <;> rfl
  · intro hs
    cases hm : get_share st sid with
    | none => simp [get_audio, hm] at hs
    | some sh =>
      refine ⟨sh, rfl, ?_⟩
      by_cases ha : sh.is_accessible now
      · exact (is_accessible_iff sh now).1 ha
      · simp [get_audio, hm, ha] at hs
  · intro sh hm ha
    simp [get_audio, hm, ha]
  · intro hm
    simp [get_audio, hm]

/-- Closed witness for C10 on concrete states: a live share streams, an
expired-by-count share is refused, and all calls leave the state intact. -/
theorem get_audio_read_only_and_gated_witness :
    (get_audio 5 ⟨[⟨"a1", "d", 0, 99, 3, 50, ShareStatus.active, some "u",
        none, none, none, some "v1"⟩], [get_audio_key "a1"]⟩ "a1").1 =
      AudioResponse.stream "a1" ∧
    (get_audio 5 ⟨[⟨"a1", "d", 0, 99, 3, 50, ShareStatus.active, some "u",
        none, none, none, some "v1"⟩], [get_audio_key "a1"]⟩ "a1").2 =
      ⟨[⟨"a1", "d", 0, 99, 3, 50, ShareStatus.active, some "u",
        none, none, none, some "v1"⟩], [get_audio_key "a1"]⟩ ∧
    (get_audio 5 ⟨[⟨"a2", "d", 0, 99, 50, 50, ShareStatus.active, some "u",
        none, none, none, some "v1"⟩], [get_audio_key "a2"]⟩ "a2").1 =
      AudioResponse.http404 "SHARE_UNAVAILABLE" := by
  refine ⟨by decide, ?_, ?_⟩
  · exact (get_audio_read_only_and_gated 5 _ "a1").1
  · exact (get_audio_read_only_and_gated 5 _ "a2").2.2.1
      ⟨"a2", "d", 0, 99, 50, 50, ShareStatus.active, some "u",
        none, none, none, some "v1"⟩ (by decide) (by decide)

/-! ### C4 — delete is idempotent and storage-failure tolerant -/

/-- C4.  `delete_share` returns success on both of two sequential calls, the
second call is a complete no-op on the state, every row with the target id
ends with status `deleted` whatever the storage outcome (the database
transition proceeds even when the R2 delete reports failure), and when the
storage delete succeeds the object is absent afterwards. -/
theorem delete_share_idempotent :
    ∀ (sfail : String → Bool) (st : St) (sid : String),
      (delete_share sfail st sid).1 = true ∧
      (delete_share sfail (delete_share sfail st sid).2 sid).1 = true ∧
      (delete_share sfail (delete_share sfail st sid).2 sid).2 =
        (delete_share sfail st sid).2 ∧
      (∀ s ∈ (delete_share sfail st sid).2.shares, s.share_id = sid →
        s.status = ShareStatus.deleted) ∧
      (sfail sid = false → get_audio_key sid ∉ (delete_share sfail st sid).2.blobs) := by
  intro sfail st sid
  refine ⟨rfl, rfl, ?_, ?_, ?_⟩
  · have hmap : ∀ l : List Share,
        (l.map (fun s => if s.share_id = sid then { s with status := ShareStatus.deleted } else s)).map
            (fun s => if s.share_id = sid then { s with status := ShareStatus.deleted } else s) =
          l.map (fun s => if s.share_id = sid then { s with status := ShareStatus.deleted } else s) := by
      intro l
      rw [List.map_map]
      refine List.map_congr_left ?_
      intro a _
      by_cases h : a.share_id = sid <;> simp [h]
    by_cases hf : sfail sid = true
    · simp only [delete_share, delete_audio, hf, if_true, hmap]
    · simp only [delete_share, delete_audio, hf, if_false, hmap]
      simp [List.filter_filter]
  · exact delete_share_marks sfail st sid
  · intro hf
    simp [delete_share, delete_audio, hf, List.mem_filter]

/-- Closed witness for C4 at a concrete share, both with a failing and a
successful storage delete. -/
theorem delete_share_idempotent_witness :
    (delete_share (fun _ => false)
      ⟨[⟨"b1", "d", 0, 9, 1, 50, ShareStatus.active, some "u",
        none, none, none, some "v1"⟩], [get_audio_key "b1"]⟩ "b1").1 = true ∧
    (delete_share (fun _ => true)
      ⟨[⟨"b1", "d", 0, 9, 1, 50, ShareStatus.active, some "u",
        none, none, none, some "v1"⟩], [get_audio_key "b1"]⟩ "b1").2.shares =
      [⟨"b1", "d", 0, 9, 1, 50, ShareStatus.deleted, some "u",
        none, none, none, some "v1"⟩] ∧
    get_audio_key "b1" ∉ (delete_share (fun _ => false)
      ⟨[⟨"b1", "d", 0, 9, 1, 50, ShareStatus.active, some "u",
        none, none, none, some "v1"⟩], [get_audio_key "b1"]⟩ "b1").2.blobs := by
  refine ⟨(delete_share_idempotent (fun _ => false) _ "b1").1, by decide, ?_⟩
  exact (delete_share_idempotent (fun _ => false) _ "b1").2.2.2.2 rfl

/-! ### C6 — issuing a token never spends -/

/-- C6.  `issue_unlock_token` leaves `unlock_token_uses` untouched, and the
wallet table is either exactly unchanged or (only when the device had no
wallet row yet) extended with the default row `(did, 100, false)`; in
particular every pre-existing wallet row keeps its `credits` and `bonus_used`
values.  The eligibility rejections (`CREDIT` on an empty balance, `BONUS`
already used) come back as `UNLOCK_REQUIRED` with a fully unchanged state. -/
theorem issue_unlock_token_never_spends :
    ∀ (now : Nat) (jti : String) (st : UnlockSt) (did method : String),
      (issue_unlock_token now jti st did method).2.token_uses = st.token_uses ∧
      ((issue_unlock_token now jti st did method).2.wallets = st.wallets ∨
        (walletExists st.wallets did = false ∧
          (issue_unlock_token now jti st did method).2.wallets =
            { device_id := did, credits := 100, bonus_used := false } :: st.wallets)) ∧
      (∀ w, findWallet st.wallets did = some w →
        pyUpper (pyStrip method) = "CREDIT" → w.credits ≤ 0 →
        issue_unlock_token now jti st did method =
          (Except.error UnlockErrorCode.UNLOCK_REQUIRED, st)) ∧
      (∀ w, findWallet st.wallets did = some w →
        pyUpper (pyStrip method) = "BONUS" → w.bonus_used = true →
        issue_unlock_token now jti st did method =
          (Except.error UnlockErrorCode.UNLOCK_REQUIRED, st)) := by
  intro now jti st did method
  refine ⟨?_, ?_, ?_, ?_⟩
  · simp only [issue_unlock_token]
    split
    · rfl
    · split
      · rfl
      · split
        · rfl
        · split
          · rfl
          · rfl
  · simp only [issue_unlock_token]
    split
    · exact Or.inl rfl
    · split
      · exact Or.inl rfl
      · split
        · exact Or.inl rfl
        · split
          · exact Or.inl rfl
          · by_cases he : walletExists st.wallets did = true
            · exact Or.inl (by simp [ensureWalletRow, he])
            · refine Or.inr ⟨by simpa using he, ?_⟩
              simp [ensureWalletRow, he]
  · intro w hw hcredit hz
    have he : walletExists st.wallets did = true := walletExists_of_findWallet hw
    have hens : ensureWalletRow st.wallets did = st.wallets := by
      simp [ensureWalletRow, he]
    simp only [issue_unlock_token, hcredit, hens, hw]
    simp [hz]
  · intro w hw hbonus hb
    have he : walletExists st.wallets did = true := walletExists_of_findWallet hw
    have hens : ensureWalletRow st.wallets did = st.wallets := by
      simp [ensureWalletRow, he]
    simp only [issue_unlock_token, hbonus, hens, hw]
    simp [hb]

/-- Closed witness for C6: concrete issue calls with an existing wallet, a
missing wallet, and a zero balance. -/
theorem issue_unlock_token_never_spends_witness :
    (issue_unlock_token 0 "j" ⟨[⟨"d", 7, false⟩], []⟩ "d" "CREDIT").2.wallets =
      [⟨"d", 7, false⟩] ∧
    issue_unlock_token 0 "j" ⟨[⟨"d", 0, false⟩], []⟩ "d" "CREDIT" =
      (Except.error UnlockErrorCode.UNLOCK_REQUIRED, ⟨[⟨"d", 0, false⟩], []⟩) ∧
    issue_unlock_token 0 "j" ⟨[⟨"d", 3, true⟩], []⟩ "d" "BONUS" =
      (Except.error UnlockErrorCode.UNLOCK_REQUIRED, ⟨[⟨"d", 3, true⟩], []⟩) := by
  refine ⟨?_, ?_, ?_⟩
  · rcases (issue_unlock_token_never_spends 0 "j" ⟨[⟨"d", 7, false⟩], []⟩ "d" "CREDIT").2.1 with h | h
    · exact h
    · exact absurd h.1 (by decide)
  · exact (issue_unlock_token_never_spends 0 "j" ⟨[⟨"d", 0, false⟩], []⟩ "d" "CREDIT").2.2.1
      ⟨"d", 0, false⟩ (by decide) (by decide) (by decide)
  · exact (issue_unlock_token_never_spends 0 "j" ⟨[⟨"d", 3, true⟩], []⟩ "d" "BONUS").2.2.2
      ⟨"d", 3, true⟩ (by decide) (by decide) (by decide)

/-! ### C3 — access is one conditional increment-then-check -/

/-- C3.  `access_share` is the single conditional update `accessUpdate`
(increment only where the row is currently `active`) followed by the check on
the returned post-increment row: if the update touched no row (unknown id, or
status `deleted`/`failed`) the call reports not-found and changes nothing; a
served row is exactly the post-increment of a currently-active matching row
and is not expired; and when the post-increment row is expired by count or by
time, `delete_share` is invoked on the updated state and the caller sees
not-found, with every matching row left `deleted`. -/
theorem access_share_conditional_update :
    ∀ (sfail : String → Bool) (now : Nat) (st : St) (sid : String),
      ((∀ s ∈ st.shares, ¬ (s.share_id = sid ∧ s.status = ShareStatus.active)) →
        access_share sfail now st sid = (none, st)) ∧
      (∀ sh, (access_share sfail now st sid).1 = some sh →
        sh.is_expired now = false ∧
        (∃ s ∈ st.shares, s.share_id = sid ∧ s.status = ShareStatus.active ∧
          sh = { s with click_count := s.click_count + 1 }) ∧
        (access_share sfail now st sid).2 =
          { st with shares := accessUpdate st.shares sid }) ∧
      (∀ sh, accessReturning st.shares sid = some sh → sh.is_expired now = true →
        access_share sfail now st sid =
          (none, (delete_share sfail { st with shares := accessUpdate st.shares sid } sid).2) ∧
        (∀ s ∈ (access_share sfail now st sid).2.shares, s.share_id = sid →
          s.status = ShareStatus.deleted)) := by
  intro sfail now st sid
  refine ⟨?_, ?_, ?_⟩
  · intro h
    have hret : accessReturning st.shares sid = none := by
      unfold accessReturning
      rw [List.head?_eq_none_iff, List.filterMap_eq_nil_iff]
      intro a ha
      simp [h a ha]
    have hupd : accessUpdate st.shares sid = st.shares := by
      unfold accessUpdate
      have h2 : ∀ a ∈ st.shares,
          (if a.share_id = sid ∧ a.status = ShareStatus.active then
            { a with click_count := a.click_count + 1 } else a) = id a := by
        intro a ha; simp [h a ha]
      rw [List.map_congr_left h2, List.map_id]
    simp [access_share, hret, hupd]
  · intro sh hs
    cases hr : accessReturning st.shares sid with
    | none => simp [access_share, hr] at hs
    | some sh' =>
      by_cases he : sh'.is_expired now = true
      · simp [access_share, hr, he] at hs
      · have hsh : sh' = sh := by simpa [access_share, hr, he] using hs
        subst hsh
        refine ⟨by simpa using he, ?_, by simp [access_share, hr, he]⟩
        have hm := head?_mem_of_eq_some hr
        rcases List.mem_filterMap.1 hm with ⟨a, hal, hfa⟩
        by_cases hc : a.share_id = sid ∧ a.status = ShareStatus.active
        · refine ⟨a, hal, hc.1, hc.2, ?_⟩
          simpa [hc] using hfa.symm
        · simp [hc] at hfa
  · intro sh hr he
    have h1 : access_share sfail now st sid =
        (none, (delete_share sfail { st with shares := accessUpdate st.shares sid } sid).2) := by
      simp [access_share, hr, he]
    refine ⟨h1, ?_⟩
    rw [h1]
    exact delete_share_marks sfail _ sid

/-- Closed witness for C3 at concrete states: a deleted share yields not-found
unchanged; an active share below the limit is served post-increment; a share
at `max_clicks - 1` triggers the expiry path. -/
theorem access_share_conditional_update_witness :
    access_share (fun _ => false) 0
      ⟨[⟨"c1", "d", 0, 99, 3, 50, ShareStatus.deleted, some "u",
        none, none, none, some "v1"⟩], []⟩ "c1" =
      (none, ⟨[⟨"c1", "d", 0, 99, 3, 50, ShareStatus.deleted, some "u",
        none, none, none, some "v1"⟩], []⟩) ∧
    (access_share (fun _ => false) 0
      ⟨[⟨"c1", "d", 0, 99, 3, 50, ShareStatus.active, some "u",
        none, none, none, some "v1"⟩], []⟩ "c1").1 =
      some ⟨"c1", "d", 0, 99, 4, 50, ShareStatus.active, some "u",
        none, none, none, some "v1"⟩ ∧
    (⟨"c1", "d", 0, 99, 4, 50, ShareStatus.active, some "u",
        none, none, none, some "v1"⟩ : Share).is_expired 0 = false ∧
    (access_share (fun _ => false) 0
      ⟨[⟨"c2", "d", 0, 99, 49, 50, ShareStatus.active, some "u",
        none, none, none, some "v1"⟩], []⟩ "c2").1 = none := by
  refine ⟨?_, by decide, ?_, by decide⟩
  · exact (access_share_conditional_update (fun _ => false) 0
      ⟨[⟨"c1", "d", 0, 99, 3, 50, ShareStatus.deleted, some "u",
        none, none, none, some "v1"⟩], []⟩ "c1").1 (by decide)
  · exact ((access_share_conditional_update (fun _ => false) 0
      ⟨[⟨"c1", "d", 0, 99, 3, 50, ShareStatus.active, some "u",
        none, none, none, some "v1"⟩], []⟩ "c1").2.1
      ⟨"c1", "d", 0, 99, 4, 50, ShareStatus.active, some "u",
        none, none, none, some "v1"⟩ (by decide)).1

/-! ### C9 — the periodic sweep -/

/-- Folding `delete_share` over a batch of shares counts one per share and
marks exactly the rows whose id occurs in the batch, independently of the
storage outcomes. -/
theorem cleanup_fold (sfail : String → Bool) :
    ∀ (L : List Share) (acc : Nat) (stx : St),
      ((L.foldl (fun acc s =>
          let r := delete_share sfail acc.2 s.share_id
          (acc.1 + 1, r.2)) (acc, stx)).1 = acc + L.length) ∧
      ((L.foldl (fun acc s =>
          let r := delete_share sfail acc.2 s.share_id
          (acc.1 + 1, r.2)) (acc, stx)).2.shares =
        stx.shares.map (fun s =>
          if s.share_id ∈ L.map Share.share_id then
            { s with status := ShareStatus.deleted }
          else s)) := by
  intro L
  induction L with
  | nil =>
    intro acc stx
    refine ⟨rfl, ?_⟩
    simp
  | cons d L ih =>
    intro acc stx
    have hstep : ((d :: L).foldl (fun acc s =>
        let r := delete_share sfail acc.2 s.share_id
        (acc.1 + 1, r.2)) (acc, stx)) =
        (L.foldl (fun acc s =>
          let r := delete_share sfail acc.2 s.share_id
          (acc.1 + 1, r.2))
          (acc + 1, (delete_share sfail stx d.share_id).2)) := rfl
    rw [hstep]
    refine ⟨?_, ?_⟩
    · rw [(ih (acc + 1) (delete_share sfail stx d.share_id).2).1]
      simp [Nat.add_assoc, Nat.add_comm 1 L.length]
    · rw [(ih (acc + 1) (delete_share sfail stx d.share_id).2).2]
      have hsh : (delete_share sfail stx d.share_id).2.shares =
          stx.shares.map (fun s =>
            if s.share_id = d.share_id then { s with status := ShareStatus.deleted } else s) := rfl
      rw [hsh, List.map_map]
      refine List.map_congr_left ?_
      intro a _
      by_cases h : a.share_id = d.share_id
      · by_cases h2 : a.share_id ∈ L.map Share.share_id <;>
          simp [Function.comp, h, h2]
      · by_cases h2 : a.share_id ∈ L.map Share.share_id <;>
          simp [Function.comp, h, h2]

/-- Under pairwise-distinct ids, an id occurs among the filtered rows' ids
iff the row itself satisfies the filter. -/
theorem mem_map_share_id_filter {p : Share → Bool} :
    ∀ (T : List Share), T.Pairwise (fun a b => a.share_id ≠ b.share_id) →
      ∀ s ∈ T, (s.share_id ∈ (T.filter p).map Share.share_id ↔ p s = true) := by
  intro T
  induction T with
  | nil => intro _ s hs; simp at hs
  | cons t T' ih =>
    intro hp s hs
    have h1 : ∀ b ∈ T', t.share_id ≠ b.share_id := (List.pairwise_cons.1 hp).1
    have hp' := (List.pairwise_cons.1 hp).2
    rcases List.mem_cons.1 hs with rfl | hs'
    · by_cases hpt : p s = true
      · rw [List.filter_cons_of_pos hpt]
        simp [hpt]
      · rw [List.filter_cons_of_neg (by simpa using hpt)]
        constructor
        · intro hmem
          rcases List.mem_map.1 hmem with ⟨u, hu, hid⟩
          exact absurd hid (h1 u (List.mem_filter.1 hu).1).symm
        · intro h; exact absurd h hpt
    · have hne : s.share_id ≠ t.share_id := fun h => (h1 s hs') h.symm
      by_cases hpt : p t = true
      · rw [List.filter_cons_of_pos hpt, List.map_cons, List.mem_cons]
        constructor
        · intro h
          rcases h with h | h
          · exact absurd h hne
          · exact (ih hp' s hs').1 h
        · intro h; exact Or.inr ((ih hp' s hs').2 h)
      · rw [List.filter_cons_of_neg (by simpa using hpt)]
        exact ih hp' s hs'

/-- C9.  When share ids are pairwise distinct, the sweep returns the number
of shares that were `active` with `expires_at <= now`, and the resulting
table is the input table with exactly those rows flipped to `deleted` and
every other row untouched — for every storage-failure environment `sfail`,
so one share's storage cleanup failing never stops the rest from being
swept. -/
theorem cleanup_expired_shares_spec :
    ∀ (sfail : String → Bool) (now : Nat) (st : St),
      st.shares.Pairwise (fun a b => a.share_id ≠ b.share_id) →
      (cleanup_expired_shares sfail now st).1 =
        (st.shares.filter (expiredCond now)).length ∧
      (cleanup_expired_shares sfail now st).2.shares =
        st.shares.map (fun s =>
          if expiredCond now s then { s with status := ShareStatus.deleted } else s) := by
  intro sfail now st hp
  have hfold := cleanup_fold sfail (st.shares.filter (expiredCond now)) 0 st
  have hc : cleanup_expired_shares sfail now st =
      (st.shares.filter (expiredCond now)).foldl (fun acc s =>
        let r := delete_share sfail acc.2 s.share_id
        (acc.1 + 1, r.2)) (0, st) := rfl
  refine ⟨?_, ?_⟩
  · rw [hc, hfold.1, Nat.zero_add]
  · rw [hc, hfold.2]
    refine List.map_congr_left ?_
    intro a ha
    rcases mem_map_share_id_filter st.shares hp a ha (p := expiredCond now) with ⟨h1, h2⟩
    by_cases h : expiredCond now a = true
    · simp [h, h2 h]
    · have : a.share_id ∉ (st.shares.filter (expiredCond now)).map Share.share_id :=
        fun hm => h (h1 hm)
      simp [h, this]

/-- Closed witness for C9: one expired share whose storage delete fails, one
expired share that cleans up, one live share and one already-deleted share. -/
theorem cleanup_expired_shares_spec_witness :
    (cleanup_expired_shares (fun c => decide (c = "e1")) 100
      ⟨[⟨"e1", "d", 0, 50, 1, 50, ShareStatus.active, some "u", none, none, none, some "v1"⟩,
        ⟨"e2", "d", 0, 80, 2, 50, ShareStatus.active, some "u", none, none, none, some "v1"⟩,
        ⟨"l1", "d", 0, 200, 3, 50, ShareStatus.active, some "u", none, none, none, some "v1"⟩,
        ⟨"g1", "d", 0, 50, 4, 50, ShareStatus.deleted, some "u", none, none, none, some "v1"⟩],
       [get_audio_key "e1", get_audio_key "e2"]⟩).1 = 2 ∧
    (cleanup_expired_shares (fun c => decide (c = "e1")) 100
      ⟨[⟨"e1", "d", 0, 50, 1, 50, ShareStatus.active, some "u", none, none, none, some "v1"⟩,
        ⟨"e2", "d", 0, 80, 2, 50, ShareStatus.active, some "u", none, none, none, some "v1"⟩,
        ⟨"l1", "d", 0, 200, 3, 50, ShareStatus.active, some "u", none, none, none, some "v1"⟩,
        ⟨"g1", "d", 0, 50, 4, 50, ShareStatus.deleted, some "u", none, none, none, some "v1"⟩],
       [get_audio_key "e1", get_audio_key "e2"]⟩).2.shares =
      [⟨"e1", "d", 0, 50, 1, 50, ShareStatus.deleted, some "u", none, none, none, some "v1"⟩,
       ⟨"e2", "d", 0, 80, 2, 50, ShareStatus.deleted, some "u", none, none, none, some "v1"⟩,
       ⟨"l1", "d", 0, 200, 3, 50, ShareStatus.active, some "u", none, none, none, some "v1"⟩,
       ⟨"g1", "d", 0, 50, 4, 50, ShareStatus.deleted, some "u", none, none, none, some "v1"⟩] := by
  have h := cleanup_expired_shares_spec (fun c => decide (c = "e1")) 100
    ⟨[⟨"e1", "d", 0, 50, 1, 50, ShareStatus.active, some "u", none, none, none, some "v1"⟩,
      ⟨"e2", "d", 0, 80, 2, 50, ShareStatus.active, some "u", none, none, none, some "v1"⟩,
      ⟨"l1", "d", 0, 200, 3, 50, ShareStatus.active, some "u", none, none, none, some "v1"⟩,
      ⟨"g1", "d", 0, 50, 4, 50, ShareStatus.deleted, some "u", none, none, none, some "v1"⟩],
     [get_audio_key "e1", get_audio_key "e2"]⟩ (by decide)
  exact ⟨h.1.trans (by decide), h.2.trans (by decide)⟩

/-! ### C5 — blob cleanup on id collision and bounded retries -/

/-- `create_attempts` consults the id generator only at the loop indices its
fuel allows, so a run started at `(attempt, fuel)` is determined by
`gen attempt, ..., gen (attempt + fuel - 1)`. -/
theorem create_attempts_congr (sfail : String → Bool) (gen gen' : Nat → String)
    (public_base device_id : String) (now expires_at max_clicks : Nat)
    (lang platform region : Option String) :
    ∀ (fuel attempt : Nat) (st' : St),
      (∀ i, attempt ≤ i → i < attempt + fuel → gen' i = gen i) →
      create_attempts sfail gen' public_base device_id now expires_at max_clicks
          lang platform region attempt fuel st' =
        create_attempts sfail gen public_base device_id now expires_at max_clicks
          lang platform region attempt fuel st' := by
  intro fuel
  induction fuel with
  | zero => intro attempt st' _; rfl
  | succ fuel ih =>
    intro attempt st' h
    have hg : gen' attempt = gen attempt := h attempt le_rfl (by omega)
    simp only [create_attempts, hg]
    by_cases hc : shareIdTaken st'.shares (gen attempt) = true
    · simp only [hc, if_true]
      by_cases hf : fuel = 0
      · simp [hf]
      · simp only [hf, if_false]
        exact ih (attempt + 1) _ (fun i h1 h2 => h i (by omega) (by omega))
    · simp [hc]

/-- C5 (amended).  (a) Whenever the insert hits a uniqueness conflict, the
loop hands the retry (or the final failure) exactly the state produced by
attempting the storage delete of the object just uploaded under the
colliding candidate id — and whenever that delete succeeds, no blob is left
under the candidate key.  (b) Retries are bounded at three attempts: when
the first three candidate ids all collide, `create_share` fails with the
exhaustion error (`SHARE_ID_EXHAUSTED`, the source's bare `RuntimeError`)
for every storage outcome, inserts no row, and — when the storage deletes
succeed — leaves no blob under any attempted key.  (c) The outcome never
depends on candidates beyond the first three. -/
theorem create_share_cleanup_and_exhaustion :
    ∀ (sfail : String → Bool) (gen : Nat → String) (public_base device_id : String)
      (now expires_at max_clicks : Nat) (lang platform region : Option String)
      (st : St),
      (∀ (attempt fuel : Nat) (st' : St),
        shareIdTaken st'.shares (gen attempt) = true →
        create_attempts sfail gen public_base device_id now expires_at max_clicks
            lang platform region attempt (fuel + 1) st' =
          (if fuel = 0 then
            CreateResult.SHARE_ID_EXHAUSTED
              ⟨st'.shares, conflictCleanup sfail public_base (gen attempt) st'.blobs⟩
          else
            create_attempts sfail gen public_base device_id now expires_at max_clicks
              lang platform region (attempt + 1) fuel
              ⟨st'.shares, conflictCleanup sfail public_base (gen attempt) st'.blobs⟩) ∧
        (sfail (gen attempt) = false →
          get_audio_key (gen attempt) ∉
            conflictCleanup sfail public_base (gen attempt) st'.blobs)) ∧
      (shareIdTaken st.shares (gen 0) = true →
       shareIdTaken st.shares (gen 1) = true →
       shareIdTaken st.shares (gen 2) = true →
        create_share sfail gen public_base device_id now expires_at max_clicks
            lang platform region st =
          CreateResult.SHARE_ID_EXHAUSTED
            ⟨st.shares,
             conflictCleanup sfail public_base (gen 2)
               (conflictCleanup sfail public_base (gen 1)
                 (conflictCleanup sfail public_base (gen 0) st.blobs))⟩ ∧
        ((∀ i, i < 3 → sfail (gen i) = false) →
          ∀ i, i < 3 → get_audio_key (gen i) ∉
            conflictCleanup sfail public_base (gen 2)
              (conflictCleanup sfail public_base (gen 1)
                (conflictCleanup sfail public_base (gen 0) st.blobs))) ∧
        (∀ gen' : Nat → String, gen' 0 = gen 0 → gen' 1 = gen 1 → gen' 2 = gen 2 →
          create_share sfail gen' public_base device_id now expires_at max_clicks
              lang platform region st =
            create_share sfail gen public_base device_id now expires_at max_clicks
              lang platform region st)) := by
  intro sfail gen public_base device_id now expires_at max_clicks lang platform region st
  have hcc : ∀ (B : List String) (sid : String), sfail sid = false →
      conflictCleanup sfail public_base sid B =
        B.filter (fun k => decide (k ≠ get_audio_key sid)) := by
    intro B sid hs
    simp [conflictCleanup, delete_audio, upload_audio, hs, List.filter_cons]
  refine ⟨?_, ?_⟩
  · intro attempt fuel st' hc
    constructor
    · simp only [create_attempts, hc, if_true]
      rfl
    · intro hs
      rw [hcc _ _ hs]
      simp [List.mem_filter]
  · intro h0 h1 h2
    have hrun : create_share sfail gen public_base device_id now expires_at max_clicks
        lang platform region st =
        CreateResult.SHARE_ID_EXHAUSTED
          ⟨st.shares,
           conflictCleanup sfail public_base (gen 2)
             (conflictCleanup sfail public_base (gen 1)
               (conflictCleanup sfail public_base (gen 0) st.blobs))⟩ := by
      show create_attempts sfail gen public_base device_id now expires_at max_clicks
          lang platform region 0 3 st = _
      simp only [create_attempts, h0, h1, h2, if_true]
      rfl
    refine ⟨hrun, ?_, ?_⟩
    · intro hnf i hi
      rw [hcc _ _ (hnf 0 (by omega)), hcc _ _ (hnf 1 (by omega)),
        hcc _ _ (hnf 2 (by omega))]
      interval_cases i <;> simp [List.mem_filter]
    · intro gen' hg0 hg1 hg2
      refine create_attempts_congr sfail gen gen' public_base device_id now expires_at
        max_clicks lang platform region 3 0 st ?_
      intro i h1i h2i
      interval_cases i <;> assumption

/-- C5 counterexample.  When the colliding candidate's storage delete fails
with a `ClientError` — swallowed by `delete_audio`, whose `False` result
`create_share` ignores — the object just uploaded under the candidate id is
NOT deleted before the retry: the state handed to the second attempt still
holds it, and after all three attempts collide (here with a soft-deleted
row, so no live share references the key) the three uploaded copies remain
in storage. -/
theorem create_share_orphan_counterexample :
    create_attempts (fun c => decide (c = "x")) (fun _ => "x") "https://cdn" "d"
        0 259200 50 (some "zh") none none 0 3
      ⟨[⟨"x", "d0", 0, 99, 1, 50, ShareStatus.deleted, some "u",
        none, none, none, some "v1"⟩], []⟩ =
      create_attempts (fun c => decide (c = "x")) (fun _ => "x") "https://cdn" "d"
        0 259200 50 (some "zh") none none 1 2
      ⟨[⟨"x", "d0", 0, 99, 1, 50, ShareStatus.deleted, some "u",
        none, none, none, some "v1"⟩], [get_audio_key "x"]⟩ ∧
    get_audio_key "x" ∈ [get_audio_key "x"] ∧
    create_share (fun c => decide (c = "x")) (fun _ => "x") "https://cdn" "d"
        0 259200 50 (some "zh") none none
      ⟨[⟨"x", "d0", 0, 99, 1, 50, ShareStatus.deleted, some "u",
        none, none, none, some "v1"⟩], []⟩ =
      CreateResult.SHARE_ID_EXHAUSTED
        ⟨[⟨"x", "d0", 0, 99, 1, 50, ShareStatus.deleted, some "u",
          none, none, none, some "v1"⟩],
         [get_audio_key "x", get_audio_key "x", get_audio_key "x"]⟩ ∧
    get_audio_key "x" ∈ [get_audio_key "x", get_audio_key "x", get_audio_key "x"] := by
  refine ⟨by rfl, by decide, by rfl, by decide⟩

/-- Closed witness for the amended C5 theorem: with working storage, a
generator stuck on a taken id exhausts all three attempts, each uploaded
object is deleted, and creation fails with no blob left behind. -/
theorem create_share_cleanup_and_exhaustion_witness :
    create_share (fun _ => false) (fun _ => "x") "https://cdn" "d" 0 259200 50
        (some "zh") none none
      ⟨[⟨"x", "d0", 0, 99, 1, 50, ShareStatus.active, some "u",
        none, none, none, some "v1"⟩], [get_audio_key "x"]⟩ =
      CreateResult.SHARE_ID_EXHAUSTED
        ⟨[⟨"x", "d0", 0, 99, 1, 50, ShareStatus.active, some "u",
          none, none, none, some "v1"⟩], []⟩ ∧
    get_audio_key "x" ∉
      conflictCleanup (fun _ => false) "https://cdn" "x"
        (conflictCleanup (fun _ => false) "https://cdn" "x"
          (conflictCleanup (fun _ => false) "https://cdn" "x" [get_audio_key "x"])) := by
  have h := (create_share_cleanup_and_exhaustion (fun _ => false) (fun _ => "x")
    "https://cdn" "d" 0 259200 50 (some "zh") none none
    ⟨[⟨"x", "d0", 0, 99, 1, 50, ShareStatus.active, some "u",
      none, none, none, some "v1"⟩], [get_audio_key "x"]⟩).2
    (by decide) (by decide) (by decide)
  exact ⟨h.1.trans (by decide), h.2.1 (fun i _ => rfl) 0 (by decide)⟩

/-! ### C2 — a token spends exactly once -/

/-- A wallet returned by `findWallet` belongs to the queried device. -/
theorem findWallet_device_id {ws : List DeviceWallet} {did : String}
    {w : DeviceWallet} (h : findWallet ws did = some w) : w.device_id = did := by
  have hw := head?_mem_of_eq_some h
  simpa using (List.mem_filter.1 hw).2

/-- `findWallet` commutes with a device-id-preserving row update. -/
theorem findWallet_map (ws : List DeviceWallet) (did : String)
    (g : DeviceWallet → DeviceWallet) (hg : ∀ w, (g w).device_id = w.device_id) :
    findWallet (ws.map g) did = (findWallet ws did).map g := by
  induction ws with
  | nil => rfl
  | cons w ws ih =>
    by_cases h : w.device_id = did
    · unfold findWallet
      rw [List.map_cons, List.filter_cons_of_pos (by simp [hg, h]),
        List.filter_cons_of_pos (by simp [h])]
      simp
    · unfold findWallet
      rw [List.map_cons, List.filter_cons_of_neg (by simp [hg, h]),
        List.filter_cons_of_neg (by simp [h])]
      exact ih

/-- C2.  For a device whose wallet has positive credits, a `CREDIT` token
issued with a fresh jti consumes successfully exactly once within its
lifetime — returning the method, decrementing that wallet by one and
recording the jti — and a second consume of the same token fails with
`UNLOCK_TOKEN_USED`, leaving the state (in particular the wallet) exactly as
the first consume left it. -/
theorem issue_consume_roundtrip :
    ∀ (st : UnlockSt) (did jti : String) (t₁ t₂ t₃ : Nat) (w : DeviceWallet),
      findWallet st.wallets did = some w → 0 < w.credits → jti ≠ "" →
      (∀ u ∈ st.token_uses, u.jti ≠ jti) →
      t₂ ≤ t₁ + TOKEN_TTL_SECONDS → t₃ ≤ t₁ + TOKEN_TTL_SECONDS →
      issue_unlock_token t₁ jti st did "CREDIT" =
        (Except.ok ⟨1, jti, did, "CREDIT", t₁ + TOKEN_TTL_SECONDS⟩, st) ∧
      consume_unlock_token t₂ st did ⟨1, jti, did, "CREDIT", t₁ + TOKEN_TTL_SECONDS⟩ =
        (Except.ok "CREDIT",
         ⟨st.wallets.map (fun w' =>
            if w'.device_id = did then { w' with credits := w'.credits - 1 } else w'),
          ⟨jti, did, "CREDIT"⟩ :: st.token_uses⟩) ∧
      findWallet (st.wallets.map (fun w' =>
          if w'.device_id = did then { w' with credits := w'.credits - 1 } else w')) did =
        some { w with credits := w.credits - 1 } ∧
      consume_unlock_token t₃
        ⟨st.wallets.map (fun w' =>
           if w'.device_id = did then { w' with credits := w'.credits - 1 } else w'),
         ⟨jti, did, "CREDIT"⟩ :: st.token_uses⟩ did
        ⟨1, jti, did, "CREDIT", t₁ + TOKEN_TTL_SECONDS⟩ =
        (Except.error UnlockErrorCode.UNLOCK_TOKEN_USED,
         ⟨st.wallets.map (fun w' =>
            if w'.device_id = did then { w' with credits := w'.credits - 1 } else w'),
          ⟨jti, did, "CREDIT"⟩ :: st.token_uses⟩) := by
  intro st did jti t₁ t₂ t₃ w hw hcred hjti hfresh ht₂ ht₃
  have hens : ensureWalletRow st.wallets did = st.wallets := by
    simp [ensureWalletRow, walletExists_of_findWallet hw]
  have hup : pyUpper (pyStrip "CREDIT") = "CREDIT" := by decide
  have hup2 : pyUpper "CREDIT" = "CREDIT" := by decide
  have hnz : ¬ (w.credits ≤ 0) := by omega
  refine ⟨?_, ?_, ?_, ?_⟩
  · simp only [issue_unlock_token, hup, hens, hw]
    simp [hnz, TOKEN_TTL_SECONDS]
  · simp only [consume_unlock_token, hup2, hens, hw]
    have hexp : ¬ (t₁ + TOKEN_TTL_SECONDS < t₂) := by omega
    have hused : (st.token_uses.any (fun u => decide (u.jti = jti))) = false := by
      simp only [List.any_eq_false]
      intro u hu
      simp [hfresh u hu]
    simp [hexp, hjti, hused, hnz]
  · rw [findWallet_map st.wallets did _ (fun w' => by split <;> rfl), hw]
    simp [findWallet_device_id hw]
  · have hexp : ¬ (t₁ + TOKEN_TTL_SECONDS < t₃) := by omega
    simp only [consume_unlock_token, hup2]
    simp [hexp, hjti]

/-- Closed witness for C2 at a concrete wallet and token. -/
theorem issue_consume_roundtrip_witness :
    issue_unlock_token 10 "j1" ⟨[⟨"d", 5, false⟩], []⟩ "d" "CREDIT" =
      (Except.ok ⟨1, "j1", "d", "CREDIT", 610⟩, ⟨[⟨"d", 5, false⟩], []⟩) ∧
    consume_unlock_token 20 ⟨[⟨"d", 5, false⟩], []⟩ "d" ⟨1, "j1", "d", "CREDIT", 610⟩ =
      (Except.ok "CREDIT", ⟨[⟨"d", 4, false⟩], [⟨"j1", "d", "CREDIT"⟩]⟩) ∧
    consume_unlock_token 30 ⟨[⟨"d", 4, false⟩], [⟨"j1", "d", "CREDIT"⟩]⟩ "d"
        ⟨1, "j1", "d", "CREDIT", 610⟩ =
      (Except.error UnlockErrorCode.UNLOCK_TOKEN_USED,
       ⟨[⟨"d", 4, false⟩], [⟨"j1", "d", "CREDIT"⟩]⟩) := by
  have h := issue_consume_roundtrip ⟨[⟨"d", 5, false⟩], []⟩ "d" "j1" 10 20 30
    ⟨"d", 5, false⟩ (by decide) (by decide) (by decide) (by simp) (by decide) (by decide)
  exact ⟨h.1.trans (by rfl), h.2.1.trans (by rfl), h.2.2.2.trans (by rfl)⟩

/-! ### C8 — a token is bound to its device -/

/-- A successfully issued token embeds the issuing device's id. -/
theorem issue_ok_did {t : Nat} {jti : String} {st st₁ : UnlockSt}
    {did method : String} {tok : TokenPayload}
    (h : issue_unlock_token t jti st did method = (Except.ok tok, st₁)) :
    tok.did = did := by
  simp only [issue_unlock_token] at h
  split at h
  · simp at h
  · split at h
    · simp at h
    · split at h
      · simp at h
      · split at h
        · simp at h
        · have h1 := congrArg Prod.fst h
          simp only at h1
          injection h1 with h2
          rw [← h2]

/-- C8.  A token validly issued for device `A` (hence carrying a valid
signature) is rejected with `INVALID_UNLOCK_TOKEN` when presented within its
lifetime by any other device `B`, and the state — both devices' wallets and
token-use records — is exactly as it was. -/
theorem cross_device_consume_rejected :
    ∀ (t₁ t₂ : Nat) (jti method : String) (st st₁ : UnlockSt) (A B : String)
      (tok : TokenPayload),
      issue_unlock_token t₁ jti st A method = (Except.ok tok, st₁) →
      B ≠ A → t₂ ≤ tok.exp →
      consume_unlock_token t₂ st₁ B tok =
        (Except.error UnlockErrorCode.INVALID_UNLOCK_TOKEN, st₁) := by
  intro t₁ t₂ jti method st st₁ A B tok hissue hne ht
  have hdid : tok.did = A := issue_ok_did hissue
  have hexp : ¬ (tok.exp < t₂) := by omega
  have hmis : ¬ (tok.did = B) := by
    rw [hdid]
    exact fun h => hne h.symm
  simp only [consume_unlock_token]
  simp [hexp, hmis]

/-- Closed witness for C8: a token issued for `"A"` is refused for `"B"`. -/
theorem cross_device_consume_rejected_witness :
    consume_unlock_token 1 ⟨[⟨"A", 5, false⟩], []⟩ "B" ⟨1, "j", "A", "CREDIT", 600⟩ =
      (Except.error UnlockErrorCode.INVALID_UNLOCK_TOKEN, ⟨[⟨"A", 5, false⟩], []⟩) := by
  exact cross_device_consume_rejected 0 1 "j" "CREDIT" ⟨[⟨"A", 5, false⟩], []⟩
    ⟨[⟨"A", 5, false⟩], []⟩ "A" "B" ⟨1, "j", "A", "CREDIT", 600⟩
    (by rfl) (by decide) (by decide)

/-! ### C7 — one hundred credit rounds drain the wallet -/

/-- One issue-then-consume round on a single-row wallet with positive
credits: the round succeeds, the balance drops by one, and the jti is
recorded. -/
theorem issueThenConsume_step (now : Nat) (jti did : String) (c : Int) (b : Bool)
    (uses : List UnlockTokenUse) (hc : 0 < c) (hjti : jti ≠ "")
    (hfresh : ∀ u ∈ uses, u.jti ≠ jti) :
    issueThenConsume now jti ⟨[⟨did, c, b⟩], uses⟩ did =
      (Except.ok "CREDIT",
       ⟨[⟨did, c - 1, b⟩], ⟨jti, did, "CREDIT"⟩ :: uses⟩) := by
  have hup : pyUpper (pyStrip "CREDIT") = "CREDIT" := by decide
  have hup2 : pyUpper "CREDIT" = "CREDIT" := by decide
  have hens : ensureWalletRow [⟨did, c, b⟩] did = [⟨did, c, b⟩] := by
    simp [ensureWalletRow, walletExists]
  have hw : findWallet [⟨did, c, b⟩] did = some ⟨did, c, b⟩ := by
    simp [findWallet]
  have hnz : ¬ (c ≤ 0) := by omega
  have hissue : issue_unlock_token now jti ⟨[⟨did, c, b⟩], uses⟩ did "CREDIT" =
      (Except.ok ⟨1, jti, did, "CREDIT", now + TOKEN_TTL_SECONDS⟩,
       ⟨[⟨did, c, b⟩], uses⟩) := by
    simp only [issue_unlock_token, hup, hens, hw]
    simp [hnz]
  have hexp : ¬ (now + TOKEN_TTL_SECONDS < now) := by omega
  have hused : (uses.any (fun u => decide (u.jti = jti))) = false := by
    simp only [List.any_eq_false]
    intro u hu
    simp [hfresh u hu]
  simp only [issueThenConsume, hissue]
  simp only [consume_unlock_token, hup2, hens, hw]
  simp [hexp, hjti, hused, hnz]

/-- Iterating credit rounds `i, ..., i+n-1` with enough balance, fresh and
pairwise-distinct nonempty jtis: every round succeeds, the balance drops by
`n`, and the use records pile up. -/
theorem runRoundsFrom_credit (jtis : Nat → String) (now : Nat) (did : String) :
    ∀ (n i : Nat) (c : Int) (b : Bool) (uses : List UnlockTokenUse),
      (n : Int) ≤ c →
      (∀ m, i ≤ m → m < i + n → jtis m ≠ "") →
      (∀ m, i ≤ m → m < i + n → ∀ u ∈ uses, u.jti ≠ jtis m) →
      (∀ m m', i ≤ m → m < m' → m' < i + n → jtis m ≠ jtis m') →
      runRoundsFrom jtis now did i n ⟨[⟨did, c, b⟩], uses⟩ =
        (n, ⟨[⟨did, c - n, b⟩],
          ((List.range' i n).map
            (fun m => (⟨jtis m, did, "CREDIT"⟩ : UnlockTokenUse))).reverse ++ uses⟩) := by
  intro n
  induction n with
  | zero =>
    intro i c b uses _ _ _ _
    simp [runRoundsFrom]
  | succ n ih =>
    intro i c b uses hc he hf hd
    have hstep := issueThenConsume_step now (jtis i) did c b uses (by omega)
      (he i le_rfl (by omega)) (fun u hu => hf i le_rfl (by omega) u hu)
    have hrest := ih (i + 1) (c - 1) b (⟨jtis i, did, "CREDIT"⟩ :: uses)
      (by omega)
      (fun m h1 h2 => he m (by omega) (by omega))
      (by
        intro m h1 h2 u hu
        rcases List.mem_cons.1 hu with rfl | hu'
        · exact hd i m le_rfl (by omega) (by omega)
        · exact hf m (by omega) (by omega) u hu')
      (fun m m' h1 h2 h3 => hd m m' (by omega) h2 (by omega))
    simp only [runRoundsFrom, hstep, hrest]
    have h1 : c - 1 - (n : Int) = c - ((n + 1 : Nat) : Int) := by push_cast; ring
    have h2 : ((List.range' (i + 1) n).map
        (fun m => (⟨jtis m, did, "CREDIT"⟩ : UnlockTokenUse))).reverse ++
        (⟨jtis i, did, "CREDIT"⟩ :: uses) =
        ((List.range' i (n + 1)).map
          (fun m => (⟨jtis m, did, "CREDIT"⟩ : UnlockTokenUse))).reverse ++ uses := by
      rw [List.range'_succ, List.map_cons, List.reverse_cons, List.append_assoc]
      rfl
    rw [h1, h2]
    simp [Nat.add_comm]

/-- C7.  Starting from `credits = 100`, one hundred issue-then-consume
`CREDIT` rounds (with fresh, distinct jtis) all succeed, the balance
decrements by exactly one per round — after `k` rounds it is `100 - k` —
down to `0`, and the 101st `issue("CREDIT")` then fails with
`UNLOCK_REQUIRED`, producing no token and changing nothing. -/
theorem credit_wallet_exhaustion :
    ∀ (did : String) (now : Nat) (jtis : Nat → String),
      (∀ i, i < 101 → jtis i ≠ "") →
      (∀ j, j < 101 → ∀ i, i < j → jtis i ≠ jtis j) →
      (runRounds jtis now did 100 ⟨[⟨did, 100, false⟩], []⟩).1 = 100 ∧
      (∀ k, k ≤ 100 →
        findWallet (runRounds jtis now did k ⟨[⟨did, 100, false⟩], []⟩).2.wallets did =
          some ⟨did, 100 - (k : Int), false⟩) ∧
      issue_unlock_token now (jtis 100)
          (runRounds jtis now did 100 ⟨[⟨did, 100, false⟩], []⟩).2 did "CREDIT" =
        (Except.error UnlockErrorCode.UNLOCK_REQUIRED,
         (runRounds jtis now did 100 ⟨[⟨did, 100, false⟩], []⟩).2) := by
  intro did now jtis hne hd
  have hrun : ∀ k, k ≤ 100 →
      runRounds jtis now did k ⟨[⟨did, 100, false⟩], []⟩ =
        (k, ⟨[⟨did, 100 - (k : Int), false⟩],
          ((List.range' 0 k).map
            (fun m => (⟨jtis m, did, "CREDIT"⟩ : UnlockTokenUse))).reverse ++ []⟩) := by
    intro k hk
    exact runRoundsFrom_credit jtis now did k 0 100 false []
      (by omega)
      (fun m h1 h2 => hne m (by omega))
      (fun m _ _ u hu => absurd hu (List.not_mem_nil u))
      (fun m m' h1 h2 h3 => hd m' (by omega) m h2)
  refine ⟨?_, ?_, ?_⟩
  · rw [hrun 100 le_rfl]
  · intro k hk
    rw [hrun k hk]
    simp [findWallet]
  · rw [hrun 100 le_rfl]
    have hup : pyUpper (pyStrip "CREDIT") = "CREDIT" := by decide
    have hz : ((100 : Int) - ((100 : Nat) : Int)) = 0 := by norm_num
    have hens : ensureWalletRow [⟨did, (100 : Int) - ((100 : Nat) : Int), false⟩] did =
        [⟨did, (100 : Int) - ((100 : Nat) : Int), false⟩] := by
      simp [ensureWalletRow, walletExists]
    have hw : findWallet [⟨did, (100 : Int) - ((100 : Nat) : Int), false⟩] did =
        some ⟨did, (100 : Int) - ((100 : Nat) : Int), false⟩ := by
      simp [findWallet]
    simp only [issue_unlock_token, hup, hens, hw]
    simp [hz]

/-- Concrete jti stream for the C7 witness: `i+1` copies of `a`. -/
def witnessJtis (i : Nat) : String :=
  String.mk (List.replicate (i + 1) 'a')

/-- Closed witness for C7 with the concrete jti stream `witnessJtis`. -/
theorem credit_wallet_exhaustion_witness :
    (runRounds witnessJtis 0 "d" 100 ⟨[⟨"d", 100, false⟩], []⟩).1 = 100 ∧
    findWallet (runRounds witnessJtis 0 "d" 37 ⟨[⟨"d", 100, false⟩], []⟩).2.wallets "d" =
      some ⟨"d", 63, false⟩ ∧
    (issue_unlock_token 0 (witnessJtis 100)
        (runRounds witnessJtis 0 "d" 100 ⟨[⟨"d", 100, false⟩], []⟩).2 "d" "CREDIT").1 =
      Except.error UnlockErrorCode.UNLOCK_REQUIRED := by
  have hne : ∀ i, i < 101 → witnessJtis i ≠ "" := by
    intro i _ h
    have h2 := congrArg (fun s : String => s.data.length) h
    simp [witnessJtis] at h2
  have hd : ∀ j, j < 101 → ∀ i, i < j → witnessJtis i ≠ witnessJtis j := by
    intro j _ i hij h
    have h2 := congrArg (fun s : String => s.data.length) h
    simp [witnessJtis] at h2
    omega
  have h := credit_wallet_exhaustion "d" 0 witnessJtis hne hd
  refine ⟨h.1, (h.2.1 37 (by omega)).trans (by decide), ?_⟩
  rw [h.2.2]

/-! ### C1 — the 60-call scenario (corrected: 49 serves, not 50) -/

/-- One access call on a single-row table whose row is `active`: the counter
is incremented; the call is served iff the post-increment row is still under
both limits, and otherwise the share is destroyed. -/
theorem access_single_active (sfail : String → Bool) (now : Nat) (s : Share)
    (B : List String) (hst : s.status = ShareStatus.active) :
    access_share sfail now ⟨[s], B⟩ s.share_id =
      (if ({ s with click_count := s.click_count + 1 } : Share).is_expired now then
        (none,
         ⟨[{ s with click_count := s.click_count + 1, status := ShareStatus.deleted }],
          (delete_audio sfail B s.share_id).2⟩)
      else
        (some { s with click_count := s.click_count + 1 },
         ⟨[{ s with click_count := s.click_count + 1 }], B⟩)) := by
  have hret : accessReturning [s] s.share_id =
      some { s with click_count := s.click_count + 1 } := by
    simp [accessReturning, hst]
  have hupd : accessUpdate [s] s.share_id =
      [{ s with click_count := s.click_count + 1 }] := by
    simp [accessUpdate, hst]
  simp only [access_share, hret, hupd]
  split
  · simp [delete_share, delete_audio]
  · rfl

/-- One access call on a single-row table whose row is not `active`: the
conditional update matches nothing, so the call reports not-found and the
state is untouched. -/
theorem access_single_inactive (sfail : String → Bool) (now : Nat) (s : Share)
    (B : List String) (sid : String) (hst : s.status ≠ ShareStatus.active) :
    access_share sfail now ⟨[s], B⟩ sid = (none, ⟨[s], B⟩) := by
  have hret : accessReturning [s] sid = none := by
    simp [accessReturning, hst]
  have hupd : accessUpdate [s] sid = [s] := by
    simp [accessUpdate, hst]
  simp [access_share, hret, hupd]

/-- Accesses on a destroyed single-row table are absorbed: no success, no
change. -/
theorem runAccesses_single_stuck (sfail : String → Bool) (now : Nat)
    (sid : String) (s : Share) (B : List String)
    (hst : s.status ≠ ShareStatus.active) :
    ∀ n, runAccesses sfail now sid n ⟨[s], B⟩ = (0, ⟨[s], B⟩) := by
  intro n
  induction n with
  | zero => rfl
  | succ n ih =>
    simp only [runAccesses, access_single_inactive sfail now s B sid hst, ih]
    simp

/-- Sequential accesses on a single fresh-enough active share before its time
expiry: with `c` clicks on the counter, `n` further calls serve
`min n (max_clicks - 1 - c)` viewers; once the counter reaches `max_clicks`
the share is destroyed (status `deleted`, blob delete attempted). -/
theorem runAccesses_single (sfail : String → Bool) (now : Nat) (s : Share)
    (B : List String) (hst : s.status = ShareStatus.active)
    (hexp : now < s.expires_at) :
    ∀ n c, c < s.max_clicks →
      runAccesses sfail now s.share_id n ⟨[{ s with click_count := c }], B⟩ =
        if c + n < s.max_clicks then
          (n, ⟨[{ s with click_count := c + n }], B⟩)
        else
          (s.max_clicks - 1 - c,
           ⟨[{ s with click_count := s.max_clicks, status := ShareStatus.deleted }],
            (delete_audio sfail B s.share_id).2⟩) := by
  intro n
  induction n with
  | zero =>
    intro c hc
    have h0 : c + 0 < s.max_clicks := by omega
    rw [if_pos h0]
    rfl
  | succ n ih =>
    intro c hc
    have hnotyet : ¬ (s.expires_at ≤ now) := by omega
    have hstep := access_single_active sfail now { s with click_count := c } B hst
    by_cases h1 : c + 1 < s.max_clicks
    · have h1' : ¬ (s.max_clicks ≤ c + 1) := by omega
      simp [Share.is_expired, hnotyet, h1'] at hstep
      simp only [runAccesses, hstep]
      rw [ih (c + 1) h1]
      by_cases h2 : c + 1 + n < s.max_clicks
      · have h2' : c + (n + 1) < s.max_clicks := by omega
        rw [if_pos h2, if_pos h2']
        have h4 : c + 1 + n = c + (n + 1) := by omega
        simp [h4, Nat.add_comm 1 n]
      · have h2' : ¬ (c + (n + 1) < s.max_clicks) := by omega
        rw [if_neg h2, if_neg h2']
        have h3 : 1 + (s.max_clicks - 1 - (c + 1)) = s.max_clicks - 1 - c := by omega
        simp [h3]
    · have h1' : s.max_clicks ≤ c + 1 := by omega
      have hceil : c + 1 = s.max_clicks := by omega
      simp [Share.is_expired, hnotyet, h1'] at hstep
      rw [hceil] at hstep
      simp only [runAccesses, hstep]
      rw [runAccesses_single_stuck sfail now s.share_id _ _ (by simp) n]
      have h2' : ¬ (c + (n + 1) < s.max_clicks) := by omega
      rw [if_neg h2']
      have h3 : s.max_clicks - 1 - c = 0 := by omega
      simp [h3]

/-- C1 counterexample.  On a fresh share with `max_clicks = 50` and an
unexpired TTL, 60 sequential access calls produce 49 — not 50 — successful
responses (the call that moves the counter from 49 to 50 is itself refused,
because `is_expired` uses `click_count >= max_clicks` on the post-increment
row), and with exactly one slot left (`click_count = 49`) the next access
call reports not-found instead of succeeding. -/
theorem sixty_accesses_counterexample :
    (runAccesses (fun _ => false) 0 "s1" 60
      ⟨[⟨"s1", "dev", 0, 1000, 0, 50, ShareStatus.active, some "u", some "zh",
        none, none, some "v1"⟩], [get_audio_key "s1"]⟩).1 = 49 ∧
    ¬ ((runAccesses (fun _ => false) 0 "s1" 60
      ⟨[⟨"s1", "dev", 0, 1000, 0, 50, ShareStatus.active, some "u", some "zh",
        none, none, some "v1"⟩], [get_audio_key "s1"]⟩).1 = 50) ∧
    (access_share (fun _ => false) 0
      ⟨[⟨"s1", "dev", 0, 1000, 49, 50, ShareStatus.active, some "u", some "zh",
        none, none, some "v1"⟩], [get_audio_key "s1"]⟩ "s1").1 = none := by
  decide

/-- C1 (amended).  For every fresh share with `max_clicks = 50` and an
unexpired TTL, 60 sequential access calls yield exactly 49 successful
accessible responses and 11 not-found responses, the final stored
`click_count` is exactly 50 and the share ends destroyed; when exactly one
slot remains (`click_count = 49`) the next access call increments to the
ceiling, reports not-found and triggers deletion; and all subsequent calls
report not-found without further change. -/
theorem sixty_accesses_amended :
    ∀ (sfail : String → Bool) (now : Nat) (s : Share) (B : List String),
      s.status = ShareStatus.active → s.click_count = 0 → s.max_clicks = 50 →
      now < s.expires_at →
      runAccesses sfail now s.share_id 60 ⟨[s], B⟩ =
        (49, ⟨[{ s with click_count := 50, status := ShareStatus.deleted }],
          (delete_audio sfail B s.share_id).2⟩) ∧
      access_share sfail now ⟨[{ s with click_count := 49 }], B⟩ s.share_id =
        (none, ⟨[{ s with click_count := 50, status := ShareStatus.deleted }],
          (delete_audio sfail B s.share_id).2⟩) ∧
      (∀ n, runAccesses sfail now s.share_id n
          ⟨[{ s with click_count := 50, status := ShareStatus.deleted }],
           (delete_audio sfail B s.share_id).2⟩ =
        (0, ⟨[{ s with click_count := 50, status := ShareStatus.deleted }],
          (delete_audio sfail B s.share_id).2⟩)) := by
  intro sfail now s B hst hclick hmax hexp
  have hnotyet : ¬ (s.expires_at ≤ now) := by omega
  refine ⟨?_, ?_, ?_⟩
  · have h0 : (⟨[s], B⟩ : St) = ⟨[{ s with click_count := 0 }], B⟩ := by
      rw [← hclick]
    rw [h0]
    rw [runAccesses_single sfail now s B hst hexp 60 0 (by omega)]
    rw [if_neg (by omega), hmax]
  · have hstep := access_single_active sfail now { s with click_count := 49 } B hst
    simp only [Share.is_expired] at hstep
    rw [if_pos (by simp; omega)] at hstep
    simpa using hstep
  · intro n
    exact runAccesses_single_stuck sfail now s.share_id _ _ (by simp) n

/-- Closed witness for the amended C1 theorem at a concrete share. -/
theorem sixty_accesses_amended_witness :
    runAccesses (fun _ => false) 0 "s1" 60
      ⟨[⟨"s1", "dev", 0, 1000, 0, 50, ShareStatus.active, some "u", some "zh",
        none, none, some "v1"⟩], [get_audio_key "s1"]⟩ =
      (49, ⟨[⟨"s1", "dev", 0, 1000, 50, 50, ShareStatus.deleted, some "u", some "zh",
        none, none, some "v1"⟩], []⟩) := by
  have h := (sixty_accesses_amended (fun _ => false) 0
    ⟨"s1", "dev", 0, 1000, 0, 50, ShareStatus.active, some "u", some "zh",
      none, none, some "v1"⟩ [get_audio_key "s1"]
    rfl rfl rfl (by decide)).1
  exact h.trans (by decide)

end Scamvax
